import Mathlib

/-!
Verification of the S2C network measurement tool (client.py / server.py)
against its natural-language specification.

The Python source is shallowly embedded: bytes are `Fin 256`, byte strings
are `List (Fin 256)`, Python dicts (which preserve insertion order) are
association lists, float arithmetic is modelled exactly over `ℚ`, and the
`socket.recv` calls of the blocking loops are driven by an explicit schedule
of chunk sizes.  The MD5 hash from `hashlib` is not part of the repository;
it is kept abstract as a parameter producing a 16-byte digest.
-/

namespace S2C

/-- A single byte, as produced by `os.urandom` / carried on the wire. -/
abbrev Byte := Fin 256

/-- Big-endian serialization of a 32-bit unsigned integer, as performed by
`struct.pack` with format `!II` (one field at a time). -/
def toBE4 (n : Nat) : List Byte :=
  [⟨n / 16777216 % 256, Nat.mod_lt _ (by norm_num)⟩,
   ⟨n / 65536 % 256, Nat.mod_lt _ (by norm_num)⟩,
   ⟨n / 256 % 256, Nat.mod_lt _ (by norm_num)⟩,
   ⟨n % 256, Nat.mod_lt _ (by norm_num)⟩]

/-- Big-endian deserialization of (the first four bytes of) a byte string,
as performed by `struct.unpack` with format `!I`. -/
def fromBE4 (bs : List Byte) : Nat :=
  match bs with
  | b0 :: b1 :: b2 :: b3 :: _ =>
      b0.val * 16777216 + b1.val * 65536 + b2.val * 256 + b3.val
  | _ => 0

section Codec

-- The MD5 digest from `hashlib`, kept abstract: any function producing a
-- byte-string digest.  Only a lower bound on its output length is relied upon.
variable (md5 : List Byte → List Byte)

/-- `struct.unpack('!I', hashlib.md5(data).digest()[:4])[0]` — the checksum
of a payload: first 4 digest bytes as a big-endian unsigned 32-bit integer
(client.py line 61, recomputed identically at line 146). -/
def checksumOf (data : List Byte) : Nat :=
  fromBE4 ((md5 data).take 4)

/-- Frame construction in `send_packets` (client.py lines 60-63):
`header = struct.pack('!II', seq, checksum)` followed by the payload. -/
def encode (seq : Nat) (data : List Byte) : List Byte :=
  toBE4 seq ++ toBE4 (checksumOf md5 data) ++ data

/-- Frame parsing on the receive path (client.py lines 95-101): the first
8 bytes are unpacked as two big-endian 32-bit integers, the next
`packet_size` bytes are the payload.  Fails (struct.error on a short
header, or a short payload) when fewer than `8 + packetSize` bytes are
available. -/
def decode (packetSize : Nat) (bs : List Byte) : Option (Nat × Nat × List Byte) :=
  if bs.length < 8 + packetSize then none
  else some (fromBE4 (bs.take 4), fromBE4 ((bs.drop 4).take 4),
             (bs.drop 8).take packetSize)

end Codec

/-! ### Shared state: the sent / received dictionaries

Python dicts preserve insertion order; updating an existing key keeps its
position.  They are modelled as association lists with an insert that
overwrites in place. -/

/-- One entry of `self.received_packets` (client.py lines 109-113). -/
structure RecvRecord where
  recv_time : ℚ
  checksum : Nat
  data : List Byte
deriving DecidableEq

/-- `self.sent_packets`: sequence number ↦ send timestamp, in insertion order. -/
abbrev SentMap := List (Nat × ℚ)

/-- `self.received_packets`: sequence number ↦ received record, in insertion order. -/
abbrev RecvMap := List (Nat × RecvRecord)

/-- `d[k] = v` on a Python dict: overwrite in place if the key exists,
append otherwise. -/
def dictInsert {β : Type} (k : Nat) (v : β) (m : List (Nat × β)) : List (Nat × β) :=
  if (m.lookup k).isSome then
    m.map (fun p => if p.1 = k then (k, v) else p)
  else m ++ [(k, v)]

/-- The key list of a dict, in insertion order. -/
def keys {β : Type} (m : List (Nat × β)) : List Nat := m.map Prod.fst

/-! ### The metrics sampler (client.py `measure_metrics`, lines 119-172) -/

/-- One recorded metric sample, with the fields in the order the code
builds its dict (client.py lines 160-168). -/
structure MetricSample where
  time : ℚ
  bandwidth : ℚ
  latency : ℚ
  jitter : ℚ
  packetLossPct : ℚ
  corruptPackets : Nat
  outOfOrderPackets : Nat
deriving DecidableEq

/-- State of the single pass over `self.sent_packets.items()`
(client.py lines 134-153): latency list, out-of-order count, corrupt
count and `last_seq_num` (initialised to `-1`). -/
structure ScanState where
  latencies : List ℚ
  outOfOrder : Nat
  corrupt : Nat
  lastSeqNum : Int
deriving DecidableEq

section Sampler

variable (md5 : List Byte → List Byte)

/-- Body of the loop at client.py lines 139-153 for one `(seq, send_time)`
pair: unmatched sequence numbers are skipped entirely; a matched one
appends its latency, recomputes the payload checksum for the corruption
check, compares `seq` against `last_seq_num` for reordering, then updates
`last_seq_num`. -/
def scanStep (received : RecvMap) (st : ScanState) (p : Nat × ℚ) : ScanState :=
  match received.lookup p.1 with
  | none => st
  | some info =>
      { latencies := st.latencies ++ [info.recv_time - p.2]
        corrupt := st.corrupt + (if checksumOf md5 info.data ≠ info.checksum then 1 else 0)
        outOfOrder := st.outOfOrder + (if (p.1 : Int) < st.lastSeqNum then 1 else 0)
        lastSeqNum := (p.1 : Int) }

/-- The full pass over the sent map in insertion order. -/
def scanSent (sent : SentMap) (received : RecvMap) : ScanState :=
  sent.foldl (scanStep md5 received) ⟨[], 0, 0, -1⟩

/-- `calculate_jitter` (client.py lines 174-187): 0 for fewer than two
latencies, otherwise the average absolute deviation from the mean. -/
def calculate_jitter (latencies : List ℚ) : ℚ :=
  if latencies.length < 2 then 0
  else
    let mean_latency := latencies.sum / latencies.length
    (latencies.map (fun l => |l - mean_latency|)).sum / latencies.length

/-- One sampling tick as a function of the sent map, received map,
packet size and elapsed time (client.py lines 128-168). -/
def computeSample (packet_size : Nat) (sent : SentMap) (received : RecvMap)
    (elapsed_time : ℚ) : MetricSample :=
  let sentCount := sent.length
  let recvCount := received.length
  let packet_loss : ℚ :=
    if 0 < sentCount then ((sentCount : ℚ) - (recvCount : ℚ)) / (sentCount : ℚ) else 0
  let sc := scanSent md5 sent received
  let avg_latency : ℚ :=
    if sc.latencies.isEmpty then 0 else sc.latencies.sum / sc.latencies.length
  let jitter := calculate_jitter sc.latencies
  let bandwidth : ℚ :=
    if 0 < elapsed_time then ((recvCount : ℚ) * (packet_size : ℚ) * 8) / elapsed_time else 0
  { time := elapsed_time
    bandwidth := bandwidth
    latency := avg_latency
    jitter := jitter
    packetLossPct := packet_loss * 100
    corruptPackets := sc.corrupt
    outOfOrderPackets := sc.outOfOrder }

end Sampler

/-! ### The sender loop (client.py `send_packets`, lines 46-81)

Each iteration of the `while` loop is driven by one entry of a schedule:
the wall-clock timestamp the iteration observes and whether `sock.sendall`
succeeds.  The loop records the SentRecord *before* the send and breaks
without incrementing the sequence number when the send fails; the
duration/stop checks simply truncate the schedule. -/

def send_packets (sequence_number : Nat) (sent : SentMap) :
    List (ℚ × Bool) → Nat × SentMap
  | [] => (sequence_number, sent)
  | (current_time, ok) :: rest =>
      let sent' := dictInsert sequence_number current_time sent
      if ok then send_packets (sequence_number + 1) sent' rest
      else (sequence_number, sent')

/-! ### The receiver loop (client.py `receive_packets`, lines 83-117)

`conn.recv(n)` on a byte stream is driven by a schedule: each loop
iteration supplies how many bytes the kernel has ready for the header
read and for the data read (the call returns at most `n` of them), plus
the timestamp `time.time()` returns for that frame.  A zero-byte header
or data read breaks the loop; a header shorter than 8 bytes makes
`struct.unpack` raise, which also ends the loop (outer `except`); in
both cases no further record is created. -/

def receive_packets (packet_size : Nat) :
    List Byte → List (Nat × Nat × ℚ) → RecvMap → RecvMap
  | _, [], received => received
  | stream, (k1, k2, recv_time) :: rest, received =>
      let header := stream.take (min k1 8)
      if header.length < 8 then received
      else
        let s1 := stream.drop (min k1 8)
        let seq_num := fromBE4 header
        let checksum := fromBE4 (header.drop 4)
        let data := s1.take (min k2 packet_size)
        if data.isEmpty then received
        else
          receive_packets packet_size (s1.drop (min k2 packet_size)) rest
            (dictInsert seq_num ⟨recv_time, checksum, data⟩ received)

/-! ### The server echo loop (server.py `handle_client`, lines 12-39)

Driven by the same kind of recv schedule: one pair of chunk sizes per
loop iteration.  The function returns the concatenation of everything
echoed back (`conn.sendall(header + data)`).  A zero-byte header read is
an orderly shutdown; a short header makes `struct.unpack` raise and the
handler closes the connection; a zero-byte data read also breaks.  The
data read is a single `conn.recv(packet_size)`: it is *not* retried on a
short read. -/

def handle_client (packet_size : Nat) :
    List Byte → List (Nat × Nat) → List Byte
  | _, [] => []
  | stream, (k1, k2) :: rest =>
      let header := stream.take (min k1 8)
      if header.length < 8 then []
      else
        let s1 := stream.drop (min k1 8)
        let data := s1.take (min k2 packet_size)
        if data.isEmpty then []
        else header ++ data ++ handle_client packet_size (s1.drop (min k2 packet_size)) rest

/-! ### Persistence (client.py `save_metrics`, lines 189-198) -/

/-- The CSV field names, in the order `measure_metrics` inserts them into
each sample dict (client.py lines 160-168), which is the order
`self.metrics[0].keys()` yields them. -/
def csvHeader : List String :=
  ["Time", "Bandwidth(bps)", "Latency(s)", "Jitter(s)", "Packet Loss(%)",
   "Corrupt Packets", "Out-of-Order Packets"]

/-- One CSV data row: the sample's values in header order. -/
def csvRow (m : MetricSample) : List ℚ :=
  [m.time, m.bandwidth, m.latency, m.jitter, m.packetLossPct,
   (m.corruptPackets : ℚ), (m.outOfOrderPackets : ℚ)]

/-- `save_metrics`: writes nothing at all when `self.metrics` is empty,
otherwise a header row followed by one row per sample. -/
def save_metrics (metrics : List MetricSample) : Option (List String × List (List ℚ)) :=
  if metrics.isEmpty then none
  else some (csvHeader, metrics.map csvRow)

/-! ### Tester state and one sampler tick -/

/-- The fields of `NetworkTester` that the sampler touches. -/
structure TesterState where
  packet_size : Nat
  sent_packets : SentMap
  received_packets : RecvMap
  metrics : List MetricSample

/-- One iteration of the `measure_metrics` loop body at a given elapsed
time: computes a sample from the current maps and appends it to
`self.metrics`; the sent/received maps are only read. -/
def measure_tick (md5 : List Byte → List Byte) (st : TesterState)
    (elapsed_time : ℚ) : TesterState :=
  { st with
    metrics := st.metrics ++
      [computeSample md5 st.packet_size st.sent_packets st.received_packets elapsed_time] }

/-! ### Definitions following the spec's words, for comparison with the code -/

/-- Mean absolute deviation of a list from its arithmetic mean, written
from the spec's words for comparison with `calculate_jitter`. -/
def meanAbsoluteDeviation (l : List ℚ) : ℚ :=
  (l.map (fun x => |x - l.sum / l.length|)).sum / l.length

/-- Count of adjacent descents in a sequence, seeded with the value the
first element is compared against: one event whenever the current element
is below the immediately preceding one. -/
def descents : Int → List Int → Nat
  | _, [] => 0
  | prev, x :: xs => (if x < prev then 1 else 0) + descents x xs

/-- The spec's reorder rule, written from its words: one event whenever
the current element is below the highest element seen so far. -/
def maxRuleCount : Int → List Int → Nat
  | _, [] => 0
  | m, x :: xs => (if x < m then 1 else 0) + maxRuleCount (max m x) xs

/-- The matched sequence numbers, in the sent map's iteration order. -/
def matchedSeqs (sent : SentMap) (received : RecvMap) : List Int :=
  ((sent.map Prod.fst).filter (fun s => (received.lookup s).isSome)).map
    (fun s => (s : Int))

/-- A concrete stand-in digest function used to instantiate the abstract
MD5 parameter on concrete inputs. -/
def mdZero : List Byte → List Byte := fun _ => List.replicate 16 0

/-- Number of successful sends in a run of the sender loop: the loop
breaks at the first failed `sendall`, so these are the leading successful
iterations of the schedule. -/
def successCount (iters : List (ℚ × Bool)) : Nat :=
  (iters.takeWhile (fun p => p.2)).length

/-! ## Theorems -/

theorem toBE4_length (n : Nat) : (toBE4 n).length = 4 := rfl

theorem fromBE4_toBE4 (n : Nat) (h : n < 4294967296) : fromBE4 (toBE4 n) = n := by
  simp only [toBE4, fromBE4]
  omega

theorem fromBE4_lt (bs : List Byte) : fromBE4 bs < 4294967296 := by
  rcases bs with _ | ⟨b0, _ | ⟨b1, _ | ⟨b2, _ | ⟨b3, rest⟩⟩⟩⟩ <;>
    simp only [fromBE4] <;> try norm_num
  have h0 := b0.isLt
  have h1 := b1.isLt
  have h2 := b2.isLt
  have h3 := b3.isLt
  omega

theorem lookup_isSome_iff {β : Type} (m : List (Nat × β)) (k : Nat) :
    (m.lookup k).isSome ↔ k ∈ keys m := by
  induction m with
  | nil => simp [keys, List.lookup]
  | cons p rest ih =>
      rcases p with ⟨k0, v0⟩
      by_cases h : k = k0
      · subst h; simp [keys, List.lookup]
      · have hbeq : (k == k0) = false := by simpa using h
        simp [keys, List.lookup, hbeq, h, ih, keys]

section CodecTheorems

variable (md5 : List Byte → List Byte)

theorem encode_length (seq : Nat) (data : List Byte) :
    (encode md5 seq data).length = 8 + data.length := by
  simp [encode, toBE4]
  omega

/-- C3: for every 32-bit sequence number and payload of exactly the
configured packet size, decoding the encoding yields the sequence number,
the checksum of the payload (first 4 digest bytes as a big-endian 32-bit
integer) and the payload unchanged. -/
theorem decode_encode (seq : Nat) (data : List Byte) (packetSize : Nat)
    (hseq : seq < 4294967296) (hlen : data.length = packetSize) :
    decode packetSize (encode md5 seq data)
      = some (seq, checksumOf md5 data, data) := by
  have hl : (encode md5 seq data).length = 8 + packetSize := by
    rw [encode_length, hlen]
  unfold decode
  rw [hl]
  simp only [lt_irrefl, if_false, Nat.lt_irrefl]
  simp only [Option.some.injEq, Prod.mk.injEq]
  refine ⟨?_, ?_, ?_⟩
  · -- sequence number round-trips
    have : (encode md5 seq data).take 4 = toBE4 seq := by
      rw [encode, List.append_assoc, List.take_append_of_le_length (by simp [toBE4])]
      simp [toBE4]
    rw [this, fromBE4_toBE4 seq hseq]
  · -- checksum round-trips
    have hdrop : (encode md5 seq data).drop 4 = toBE4 (checksumOf md5 data) ++ data := by
      rw [encode, List.append_assoc, List.drop_append_of_le_length (by simp [toBE4])]
      simp [toBE4]
    rw [hdrop, List.take_append_of_le_length (by simp [toBE4])]
    have : (toBE4 (checksumOf md5 data)).take 4 = toBE4 (checksumOf md5 data) := by
      simp [toBE4]
    rw [this]
    exact fromBE4_toBE4 _ (by unfold checksumOf; exact fromBE4_lt _)
  · -- payload round-trips
    have hdrop : (encode md5 seq data).drop 8 = data := by
      rw [encode]
      have : (toBE4 seq ++ toBE4 (checksumOf md5 data)).length = 8 := by simp [toBE4]
      rw [← this, List.drop_left]
    rw [hdrop, ← hlen, List.take_length]

end CodecTheorems

theorem decode_encode_witness :
    7 < 4294967296 ∧ ([1, 2] : List Byte).length = 2 ∧
    decode 2 (encode mdZero 7 [1, 2]) = some (7, checksumOf mdZero [1, 2], [1, 2]) :=
  ⟨by norm_num, rfl, decode_encode mdZero 7 [1, 2] 2 (by norm_num) rfl⟩

/-- C6: the computed jitter equals the mean absolute deviation of the
latencies from their arithmetic mean, and is 0 for every list of fewer
than two latency samples (the empty list and every singleton). -/
theorem jitter_mean_abs_deviation :
    (∀ l : List ℚ, calculate_jitter l = meanAbsoluteDeviation l) ∧
    calculate_jitter [] = 0 ∧ (∀ x : ℚ, calculate_jitter [x] = 0) := by
  refine ⟨?_, rfl, fun x => rfl⟩
  intro l
  match l with
  | [] => simp [calculate_jitter, meanAbsoluteDeviation]
  | [x] => simp [calculate_jitter, meanAbsoluteDeviation]
  | x :: y :: rest =>
      simp only [calculate_jitter, meanAbsoluteDeviation, List.length_cons]
      rw [if_neg (by omega)]

/-- C8: one sampler tick is a pure function of the sent map, received
map, packet size and elapsed time: it leaves the maps untouched, and a
second tick over the unchanged snapshot appends an identical sample. -/
theorem measure_tick_deterministic (md5 : List Byte → List Byte)
    (st : TesterState) (e : ℚ) :
    (measure_tick md5 st e).sent_packets = st.sent_packets ∧
    (measure_tick md5 st e).received_packets = st.received_packets ∧
    (measure_tick md5 st e).packet_size = st.packet_size ∧
    (measure_tick md5 (measure_tick md5 st e) e).metrics
      = st.metrics ++
        [computeSample md5 st.packet_size st.sent_packets st.received_packets e,
         computeSample md5 st.packet_size st.sent_packets st.received_packets e] := by
  refine ⟨rfl, rfl, rfl, ?_⟩
  simp [measure_tick]

/-- C10: persistence produces output exactly when at least one sample
exists: `None` for an empty metrics list, otherwise the fixed header row
(Time, Bandwidth(bps), Latency(s), Jitter(s), Packet Loss(%), Corrupt
Packets, Out-of-Order Packets) followed by one row per sample in order. -/
theorem save_metrics_nonempty_iff (metrics : List MetricSample) :
    (save_metrics metrics = none ↔ metrics = []) ∧
    (metrics ≠ [] → save_metrics metrics = some (csvHeader, metrics.map csvRow)) := by
  cases metrics with
  | nil => simp [save_metrics]
  | cons m rest => simp [save_metrics]

/-- C1: with the received keys drawn from the sent keys (every received
record answers a sent frame) and both dicts keyed uniquely, the sample's
packet-loss percentage equals `(sent - received) / sent * 100` (0 when
nothing was sent), lies in `[0, 100]`, and is 0 exactly when every sent
sequence number has a matching received record. -/
theorem packet_loss_bounds (md5 : List Byte → List Byte) (ps : Nat)
    (sent : SentMap) (received : RecvMap) (e : ℚ)
    (hsub : keys received ⊆ keys sent)
    (hns : (keys sent).Nodup) (hnr : (keys received).Nodup) :
    (computeSample md5 ps sent received e).packetLossPct
      = (if 0 < sent.length
         then ((sent.length : ℚ) - (received.length : ℚ)) / (sent.length : ℚ) * 100
         else 0) ∧
    0 ≤ (computeSample md5 ps sent received e).packetLossPct ∧
    (computeSample md5 ps sent received e).packetLossPct ≤ 100 ∧
    ((computeSample md5 ps sent received e).packetLossPct = 0 ↔
      ∀ s ∈ keys sent, (received.lookup s).isSome) := by
  have hloss : (computeSample md5 ps sent received e).packetLossPct
      = (if 0 < sent.length
         then ((sent.length : ℚ) - (received.length : ℚ)) / (sent.length : ℚ)
         else 0) * 100 := rfl
  have hsubF : (keys received).toFinset ⊆ (keys sent).toFinset := by
    intro x hx
    rw [List.mem_toFinset] at hx ⊢
    exact hsub hx
  have hcardR : (keys received).toFinset.card = received.length := by
    rw [List.toFinset_card_of_nodup hnr, keys, List.length_map]
  have hcardS : (keys sent).toFinset.card = sent.length := by
    rw [List.toFinset_card_of_nodup hns, keys, List.length_map]
  have hRS : received.length ≤ sent.length := by
    have := Finset.card_le_card hsubF
    omega
  rcases Nat.eq_zero_or_pos sent.length with hS0 | hSpos
  · have hsentnil : sent = [] := List.length_eq_zero.mp hS0
    subst hsentnil
    refine ⟨by simp [hloss], by simp [hloss], by simp [hloss], ?_⟩
    simp [hloss, keys]
  · have hSq : (0 : ℚ) < (sent.length : ℚ) := by exact_mod_cast hSpos
    have hRq : (received.length : ℚ) ≤ (sent.length : ℚ) := by exact_mod_cast hRS
    have hR0 : (0 : ℚ) ≤ (received.length : ℚ) := by positivity
    rw [hloss, if_pos hSpos]
    have hfrac0 : (0 : ℚ) ≤ ((sent.length : ℚ) - received.length) / sent.length :=
      div_nonneg (by linarith) (le_of_lt hSq)
    have hfrac1 : ((sent.length : ℚ) - received.length) / sent.length ≤ 1 :=
      (div_le_one hSq).mpr (by linarith)
    refine ⟨by rw [if_pos hSpos], by linarith, by linarith, ?_⟩
    constructor
    · intro hz
      have hf0 : ((sent.length : ℚ) - received.length) / sent.length = 0 := by
        rcases mul_eq_zero.mp hz with h | h
        · exact h
        · norm_num at h
      have hSR : sent.length = received.length := by
        rcases div_eq_zero_iff.mp hf0 with h | h
        · have : (sent.length : ℚ) = received.length := by linarith
          exact_mod_cast this
        · exfalso; linarith
      have hfeq : (keys received).toFinset = (keys sent).toFinset :=
        Finset.eq_of_subset_of_card_le hsubF (by omega)
      intro s hs
      rw [lookup_isSome_iff]
      have hmem : s ∈ (keys sent).toFinset := List.mem_toFinset.mpr hs
      rw [← hfeq] at hmem
      exact List.mem_toFinset.mp hmem
    · intro hall
      have hsubF2 : (keys sent).toFinset ⊆ (keys received).toFinset := by
        intro x hx
        rw [List.mem_toFinset] at hx ⊢
        exact (lookup_isSome_iff received x).mp (hall x hx)
      have hSR : sent.length = received.length := by
        have := Finset.card_le_card hsubF2
        omega
      rw [hSR, sub_self, zero_div, zero_mul]

theorem packet_loss_bounds_witness :
    keys [((0 : Nat), (⟨0, 5, [1]⟩ : RecvRecord))] ⊆ keys [((0 : Nat), (0 : ℚ)), (1, 0)] ∧
    (keys [((0 : Nat), (0 : ℚ)), (1, 0)]).Nodup ∧
    (keys [((0 : Nat), (⟨0, 5, [1]⟩ : RecvRecord))]).Nodup ∧
    0 ≤ (computeSample mdZero 4 [((0 : Nat), (0 : ℚ)), (1, 0)]
          [((0 : Nat), (⟨0, 5, [1]⟩ : RecvRecord))] 1).packetLossPct ∧
    (computeSample mdZero 4 [((0 : Nat), (0 : ℚ)), (1, 0)]
          [((0 : Nat), (⟨0, 5, [1]⟩ : RecvRecord))] 1).packetLossPct ≤ 100 :=
  ⟨by decide, by decide, by decide,
   (packet_loss_bounds mdZero 4 [((0 : Nat), (0 : ℚ)), (1, 0)]
      [((0 : Nat), (⟨0, 5, [1]⟩ : RecvRecord))] 1
      (by decide) (by decide) (by decide)).2.1,
   (packet_loss_bounds mdZero 4 [((0 : Nat), (0 : ℚ)), (1, 0)]
      [((0 : Nat), (⟨0, 5, [1]⟩ : RecvRecord))] 1
      (by decide) (by decide) (by decide)).2.2.1⟩

theorem foldl_scanStep_outOfOrder (md5 : List Byte → List Byte) (received : RecvMap) :
    ∀ (sent : SentMap) (st : ScanState),
      (sent.foldl (scanStep md5 received) st).outOfOrder
        = st.outOfOrder + descents st.lastSeqNum (matchedSeqs sent received)
  | [], st => by simp [matchedSeqs, descents]
  | (s, t) :: rest, st => by
      rcases hl : received.lookup s with _ | info
      · have hstep : scanStep md5 received st (s, t) = st := by
          simp [scanStep, hl]
        have hmatched : matchedSeqs ((s, t) :: rest) received = matchedSeqs rest received := by
          simp [matchedSeqs, List.filter_cons, hl]
        rw [List.foldl_cons, hstep, hmatched]
        exact foldl_scanStep_outOfOrder md5 received rest st
      · have hmatched : matchedSeqs ((s, t) :: rest) received
            = (s : Int) :: matchedSeqs rest received := by
          simp [matchedSeqs, List.filter_cons, hl]
        rw [List.foldl_cons, hmatched]
        rw [foldl_scanStep_outOfOrder md5 received rest (scanStep md5 received st (s, t))]
        simp only [scanStep, hl, descents]
        omega

theorem scanSent_outOfOrder (md5 : List Byte → List Byte)
    (sent : SentMap) (received : RecvMap) :
    (scanSent md5 sent received).outOfOrder = descents (-1) (matchedSeqs sent received) := by
  unfold scanSent
  rw [foldl_scanStep_outOfOrder]
  simp

theorem reorder_max_rule_counterexample :
    (computeSample mdZero 4 [(5, 0), (1, 0), (3, 0)]
        [(5, ⟨0, 0, []⟩), (1, ⟨0, 0, []⟩), (3, ⟨0, 0, []⟩)] 1).outOfOrderPackets = 1 ∧
    maxRuleCount (-1)
        (matchedSeqs [(5, 0), (1, 0), (3, 0)]
          [(5, ⟨0, 0, []⟩), (1, ⟨0, 0, []⟩), (3, ⟨0, 0, []⟩)]) = 2 ∧
    (computeSample mdZero 4 [(5, 0), (1, 0), (3, 0)]
        [(5, ⟨0, 0, []⟩), (1, ⟨0, 0, []⟩), (3, ⟨0, 0, []⟩)] 1).outOfOrderPackets
      ≠ maxRuleCount (-1)
          (matchedSeqs [(5, 0), (1, 0), (3, 0)]
            [(5, ⟨0, 0, []⟩), (1, ⟨0, 0, []⟩), (3, ⟨0, 0, []⟩)]) := by
  refine ⟨rfl, rfl, ?_⟩
  decide

/-- C2 (amended): the sampler counts a reorder event whenever the current
matched sequence number, iterating the sent map in its insertion order,
is less than the *immediately preceding* matched sequence number (not the
highest seen so far); contrived maps whose sent insertion order matches 5
before 3 still yield a reorder count of at least 1. -/
theorem reorder_prev_rule :
    (∀ (md5 : List Byte → List Byte) (ps : Nat) (sent : SentMap)
        (received : RecvMap) (e : ℚ),
      (computeSample md5 ps sent received e).outOfOrderPackets
        = descents (-1) (matchedSeqs sent received)) ∧
    1 ≤ (computeSample mdZero 4 [(5, 0), (3, 0)]
          [(5, ⟨0, 0, []⟩), (3, ⟨0, 0, []⟩)] 1).outOfOrderPackets := by
  constructor
  · intro md5 ps sent received e
    exact scanSent_outOfOrder md5 sent received
  · decide

theorem send_packets_run :
    ∀ (iters : List (ℚ × Bool)) (k : Nat) (m : SentMap), keys m = List.range k →
      (send_packets k m iters).1 = k + successCount iters ∧
      keys (send_packets k m iters).2
        = List.range (k + successCount iters
            + (if successCount iters = iters.length then 0 else 1))
  | [], k, m, hkeys => by
      simp [send_packets, successCount, hkeys]
  | (t, ok) :: rest, k, m, hkeys => by
      have hnotin : k ∉ keys m := by
        rw [hkeys]
        simp [List.mem_range]
      have hlookup : (m.lookup k).isSome = false := by
        rw [← Bool.not_eq_true, lookup_isSome_iff]
        exact hnotin
      have hins : keys (dictInsert k t m) = List.range (k + 1) := by
        rw [dictInsert, hlookup]
        simp only [Bool.false_eq_true, if_false, keys, List.map_append]
        rw [← keys, hkeys, List.range_succ]
        rfl
      cases ok with
      | false =>
          have hsc : successCount ((t, false) :: rest) = 0 := by
            simp [successCount, List.takeWhile_cons]
          have hrun : send_packets k m ((t, false) :: rest) = (k, dictInsert k t m) := rfl
          rw [hrun, hsc]
          refine ⟨by omega, ?_⟩
          rw [if_neg (by simp)]
          simpa using hins
      | true =>
          have hsc : successCount ((t, true) :: rest) = 1 + successCount rest := by
            simp only [successCount, List.takeWhile_cons]
            simp [Nat.add_comm]
          have hrun : send_packets k m ((t, true) :: rest)
              = send_packets (k + 1) (dictInsert k t m) rest := rfl
          have ih := send_packets_run rest (k + 1) (dictInsert k t m) hins
          have hif : (if successCount ((t, true) :: rest) = ((t, true) :: rest).length
                then 0 else 1)
              = (if successCount rest = rest.length then 0 else 1) := by
            rw [hsc, List.length_cons]
            by_cases h : successCount rest = rest.length
            · rw [if_pos (by omega), if_pos h]
            · rw [if_neg (by omega), if_neg h]
          rw [hrun, hif, hsc]
          refine ⟨by rw [ih.1]; omega, ?_⟩
          rw [ih.2]
          congr 1
          omega

/-- C7: throughout any run of the sender loop — whether it ends by
duration/stop or by a failed send — the sequence number starts at 0 and
advances by exactly 1 per successful send (a failed send does not advance
it, so numbers are never skipped), and the sent map's keys are exactly
0..n-1 after n all-successful iterations, plus the single record the
failed attempt inserts before the write when the run ends in an error;
the keys are always duplicate-free, so each SentRecord is created exactly
once.  The last two conjuncts evaluate the error path concretely: two
successes then a failure leave the sequence number at 2 and the keys at
[0, 1, 2]. -/
theorem sender_sequence_numbers (iters : List (ℚ × Bool)) :
    (send_packets 0 [] iters).1 = successCount iters ∧
    keys (send_packets 0 [] iters).2
      = List.range (successCount iters
          + (if successCount iters = iters.length then 0 else 1)) ∧
    (keys (send_packets 0 [] iters).2).Nodup ∧
    (send_packets 0 [] [((0 : ℚ), true), (1, true), (2, false)]).1 = 2 ∧
    keys (send_packets 0 [] [((0 : ℚ), true), (1, true), (2, false)]).2 = [0, 1, 2] := by
  have hmain := send_packets_run iters 0 [] (by simp [keys])
  refine ⟨by simpa using hmain.1, by simpa using hmain.2, ?_, by decide, by decide⟩
  have h2 := hmain.2
  simp only [Nat.zero_add] at h2
  rw [h2]
  exact List.nodup_range _

theorem save_metrics_nonempty_iff_witness :
    ([⟨0, 0, 0, 0, 0, 0, 0⟩] : List MetricSample) ≠ [] ∧
    save_metrics [⟨0, 0, 0, 0, 0, 0, 0⟩]
      = some (csvHeader, [csvRow ⟨0, 0, 0, 0, 0, 0, 0⟩]) :=
  ⟨by simp, (save_metrics_nonempty_iff [⟨0, 0, 0, 0, 0, 0, 0⟩]).2 (by simp)⟩

/-- C4: the echo handler issues a single `conn.recv(packet_size)` and does
not retry a short read.  With one 12-byte frame (packet size 4) arriving
but only 2 payload bytes ready at the data read, the handler echoes a
10-byte frame — not the 12 bytes the claim requires — leaving the frame's
last 2 bytes unconsumed for the next header read. -/
theorem echo_short_read_not_retried :
    handle_client 4 [0, 0, 0, 1, 0, 0, 0, 2, 10, 11, 12, 13] [(8, 2)]
      = [0, 0, 0, 1, 0, 0, 0, 2, 10, 11] ∧
    (handle_client 4 [0, 0, 0, 1, 0, 0, 0, 2, 10, 11, 12, 13] [(8, 2)]).length ≠ 8 + 4 ∧
    handle_client 4 [0, 0, 0, 1, 0, 0, 0, 2, 10, 11, 12, 13] [(8, 2)]
      ≠ [0, 0, 0, 1, 0, 0, 0, 2, 10, 11, 12, 13] := by
  refine ⟨rfl, ?_, ?_⟩ <;> decide

-- C5, the claim as stated is false: a frame of only 10 bytes (fewer than
-- the 8 + 4 the claim calls well-formed) is not dropped — the receiver
-- records it.
theorem short_frame_recorded_counterexample :
    receive_packets 4 [0, 0, 0, 1, 0, 0, 0, 2, 10, 11] [(8, 2, 0)] []
      = [(1, ⟨0, 2, [10, 11]⟩)] ∧
    ([0, 0, 0, 1, 0, 0, 0, 2, 10, 11] : List Byte).length < 8 + 4 ∧
    receive_packets 4 [0, 0, 0, 1, 0, 0, 0, 2, 10, 11] [(8, 2, 0)] [] ≠ [] := by
  refine ⟨rfl, by decide, ?_⟩
  decide

/-- C5 (amended): the modelled frame parse fails exactly when fewer than
`8 + packet_size` bytes are available, but the receiver performs no such
check: after a full 8-byte header read it creates a ReceivedRecord from
any nonzero payload read, even one shorter than `packet_size`; only a
zero-byte (or short, which aborts the loop) header read or a zero-byte
payload read ends the loop without creating a record. -/
theorem receiver_records_any_nonzero_read :
    (∀ (ps : Nat) (bs : List Byte), decode ps bs = none ↔ bs.length < 8 + ps) ∧
    (∀ (ps k1 k2 : Nat) (t : ℚ) (stream : List Byte) (m : RecvMap),
      receive_packets ps stream [(k1, k2, t)] m
        = if (stream.take (min k1 8)).length < 8 ∨
             ((stream.drop (min k1 8)).take (min k2 ps)).isEmpty = true then m
          else
            dictInsert (fromBE4 (stream.take (min k1 8)))
              ⟨t, fromBE4 ((stream.take (min k1 8)).drop 4),
               (stream.drop (min k1 8)).take (min k2 ps)⟩ m) := by
  constructor
  · intro ps bs
    by_cases h : bs.length < 8 + ps
    · simp [decode, h]
    · simp [decode, h]
  · intro ps k1 k2 t stream m
    have hunfold : receive_packets ps stream [(k1, k2, t)] m
        = (if (stream.take (min k1 8)).length < 8 then m
           else if ((stream.drop (min k1 8)).take (min k2 ps)).isEmpty = true then m
           else dictInsert (fromBE4 (stream.take (min k1 8)))
                  ⟨t, fromBE4 ((stream.take (min k1 8)).drop 4),
                   (stream.drop (min k1 8)).take (min k2 ps)⟩ m) := rfl
    rw [hunfold]
    by_cases h1 : (stream.take (min k1 8)).length < 8
    · rw [if_pos h1, if_pos (Or.inl h1)]
    · by_cases h2 : ((stream.drop (min k1 8)).take (min k2 ps)).isEmpty = true
      · rw [if_neg h1, if_pos h2, if_pos (Or.inr h2)]
      · rw [if_neg h1, if_neg h2, if_neg (by tauto)]

/-- C9: the receiver records a ReceivedRecord from whatever nonzero byte
count the payload read returns, with no check against `packet_size`; a
record whose truncated payload no longer matches the checksum carried in
the header is then counted as corrupt by the sampler's checksum
recomputation. -/
theorem truncated_record_corrupt (md5 : List Byte → List Byte) (ps k2 : Nat)
    (stream : List Byte) (t tsend e : ℚ)
    (h8 : 8 ≤ stream.length)
    (hd : (stream.drop 8).take (min k2 ps) ≠ [])
    (hlen : ((stream.drop 8).take (min k2 ps)).length < ps)
    (hck : checksumOf md5 ((stream.drop 8).take (min k2 ps))
             ≠ fromBE4 ((stream.take 8).drop 4)) :
    receive_packets ps stream [(8, k2, t)] []
      = [(fromBE4 (stream.take 8),
          ⟨t, fromBE4 ((stream.take 8).drop 4), (stream.drop 8).take (min k2 ps)⟩)] ∧
    ((stream.drop 8).take (min k2 ps)).length < ps ∧
    (computeSample md5 ps [(fromBE4 (stream.take 8), tsend)]
        [(fromBE4 (stream.take 8),
          ⟨t, fromBE4 ((stream.take 8).drop 4), (stream.drop 8).take (min k2 ps)⟩)]
        e).corruptPackets = 1 := by
  have hhead : (stream.take 8).length = 8 := by
    rw [List.length_take]
    omega
  have hde : ((stream.drop 8).take (min k2 ps)).isEmpty = false := by
    cases hq : ((stream.drop 8).take (min k2 ps)).isEmpty
    · rfl
    · exact absurd (List.isEmpty_eq_true.mp hq) hd
  refine ⟨?_, hlen, ?_⟩
  · have hunfold : receive_packets ps stream [(8, k2, t)] []
        = (if (stream.take (min 8 8)).length < 8 then []
           else if ((stream.drop (min 8 8)).take (min k2 ps)).isEmpty = true then []
           else dictInsert (fromBE4 (stream.take (min 8 8)))
                  ⟨t, fromBE4 ((stream.take (min 8 8)).drop 4),
                   (stream.drop (min 8 8)).take (min k2 ps)⟩ []) := rfl
    rw [hunfold]
    simp only [Nat.min_self]
    rw [if_neg (by omega), if_neg (by rw [hde]; exact Bool.false_ne_true)]
    simp [dictInsert, List.lookup]
  · have hcorr : (computeSample md5 ps [(fromBE4 (stream.take 8), tsend)]
        [(fromBE4 (stream.take 8),
          ⟨t, fromBE4 ((stream.take 8).drop 4), (stream.drop 8).take (min k2 ps)⟩)]
        e).corruptPackets
        = (scanSent md5 [(fromBE4 (stream.take 8), tsend)]
            [(fromBE4 (stream.take 8),
              ⟨t, fromBE4 ((stream.take 8).drop 4), (stream.drop 8).take (min k2 ps)⟩)]).corrupt := rfl
    rw [hcorr]
    simp only [scanSent, List.foldl_cons, List.foldl_nil, scanStep, List.lookup,
      beq_self_eq_true]
    rw [if_pos hck]

theorem truncated_record_corrupt_witness :
    8 ≤ ([0, 0, 0, 7, 0, 0, 0, 1, 9, 9] : List Byte).length ∧
    (([0, 0, 0, 7, 0, 0, 0, 1, 9, 9] : List Byte).drop 8).take (min 2 4) ≠ [] ∧
    ((([0, 0, 0, 7, 0, 0, 0, 1, 9, 9] : List Byte).drop 8).take (min 2 4)).length < 4 ∧
    checksumOf mdZero ((([0, 0, 0, 7, 0, 0, 0, 1, 9, 9] : List Byte).drop 8).take (min 2 4))
      ≠ fromBE4 ((([0, 0, 0, 7, 0, 0, 0, 1, 9, 9] : List Byte).take 8).drop 4) ∧
    (computeSample mdZero 4
        [(fromBE4 (([0, 0, 0, 7, 0, 0, 0, 1, 9, 9] : List Byte).take 8), 0)]
        [(fromBE4 (([0, 0, 0, 7, 0, 0, 0, 1, 9, 9] : List Byte).take 8),
          ⟨0, fromBE4 ((([0, 0, 0, 7, 0, 0, 0, 1, 9, 9] : List Byte).take 8).drop 4),
           (([0, 0, 0, 7, 0, 0, 0, 1, 9, 9] : List Byte).drop 8).take (min 2 4)⟩)]
        1).corruptPackets = 1 :=
  ⟨by decide, by decide, by decide, by decide,
   (truncated_record_corrupt mdZero 4 2 [0, 0, 0, 7, 0, 0, 0, 1, 9, 9] 0 0 1
      (by decide) (by decide) (by decide) (by decide)).2.2⟩

end S2C
